import Mathlib

/-!
Verification development for the AiOS repository, a small Rust command-line
shell.  The Rust sources under `src/ai_os/src/` are embedded shallowly:

* `hal/memory.rs` — the `SimulatedCelestialMemory` store.  Its two
  `std::collections::HashMap<String, _>` fields are modelled as association
  lists carrying only the key-to-value mapping (a `HashMap`'s iteration order
  is unspecified and nothing proved here depends on it).  The `f32` fields of
  the stored records are modelled as exact rationals: the memory module never
  performs floating-point arithmetic, it only stores, clones and returns
  these values unchanged.
* `hal/ai.rs` — the keyword-based emotion engine.  Rust's Unicode
  `str::to_lowercase` is modelled by ASCII lowercasing, which is exact on the
  ASCII keyword set the engine matches.
* `hal/tensor.rs` — tensor addition over raw byte buffers.  The hardware
  `f32` addition applied to each 4-byte group is kept abstract (a parameter),
  since the claims under study concern the error paths and the shape of the
  result, not IEEE arithmetic.
* `hal/compute.rs` — the device list.
* `module_system.rs` and the `register_mod` / `run_mod` command handlers in
  `main.rs` — the file system is modelled as an association list from path
  strings to contents; SHA-256 (the `sha2` crate) and serde_json's parsing
  and rendering of the flat entry list are kept abstract as parameters, the
  handlers' own control flow being what the claims are about.

Mutable methods are embedded as state-passing functions returning the Rust
result paired with the updated state; `Result<T, String>` becomes
`Except String T`.
-/

namespace AiOS

/-! ### Association-list model of `HashMap<String, V>` -/

/-- `HashMap::contains_key`. -/
def hmContainsKey {V : Type} (m : List (String × V)) (k : String) : Bool :=
  m.any (fun p => p.1 == k)

/-- `HashMap::get` (cloned to an owned value, as the Rust code does). -/
def hmGet {V : Type} (m : List (String × V)) (k : String) : Option V :=
  (m.find? (fun p => p.1 == k)).map (fun p => p.2)

/-- The map left after `HashMap::remove`. -/
def hmRemove {V : Type} (m : List (String × V)) (k : String) : List (String × V) :=
  m.filter (fun p => !(p.1 == k))

/-- The map left after `HashMap::insert`, which overwrites any existing
binding of the key. -/
def hmInsert {V : Type} (m : List (String × V)) (k : String) (v : V) : List (String × V) :=
  (k, v) :: hmRemove m k

theorem hmGet_cons {V : Type} (p : String × V) (t : List (String × V)) (k : String) :
    hmGet (p :: t) k = if p.1 = k then some p.2 else hmGet t k := by
  by_cases h : p.1 = k
  · rw [hmGet, List.find?_cons_of_pos _ (by simpa using h), if_pos h]
    rfl
  · rw [hmGet, List.find?_cons_of_neg _ (by simpa using h), if_neg h]
    rfl

theorem hmRemove_cons {V : Type} (p : String × V) (t : List (String × V)) (k : String) :
    hmRemove (p :: t) k = if p.1 = k then hmRemove t k else p :: hmRemove t k := by
  by_cases h : p.1 = k <;> simp [hmRemove, List.filter_cons, h]

theorem hmContainsKey_cons {V : Type} (p : String × V) (t : List (String × V)) (k : String) :
    hmContainsKey (p :: t) k = if p.1 = k then true else hmContainsKey t k := by
  by_cases h : p.1 = k
  · simp [hmContainsKey, List.any_cons, h]
  · have hb : (p.1 == k) = false := by simpa using h
    simp [hmContainsKey, List.any_cons, hb, h]

theorem hmGet_hmRemove_self {V : Type} (m : List (String × V)) (k : String) :
    hmGet (hmRemove m k) k = none := by
  induction m with
  | nil => rfl
  | cons p t ih =>
    rw [hmRemove_cons]
    by_cases h : p.1 = k
    · rw [if_pos h]
      exact ih
    · rw [if_neg h, hmGet_cons, if_neg h]
      exact ih

theorem hmGet_hmRemove_ne {V : Type} (m : List (String × V)) {k k' : String} (h : k' ≠ k) :
    hmGet (hmRemove m k) k' = hmGet m k' := by
  induction m with
  | nil => rfl
  | cons p t ih =>
    rw [hmRemove_cons]
    by_cases hp : p.1 = k
    · rw [if_pos hp, hmGet_cons, if_neg (by rw [hp]; exact fun e => h e.symm), ih]
    · rw [if_neg hp, hmGet_cons, hmGet_cons, ih]

theorem hmGet_hmInsert_self {V : Type} (m : List (String × V)) (k : String) (v : V) :
    hmGet (hmInsert m k v) k = some v := by
  rw [hmInsert, hmGet_cons, if_pos rfl]

theorem hmGet_hmInsert_ne {V : Type} (m : List (String × V)) {k k' : String} (v : V)
    (h : k' ≠ k) : hmGet (hmInsert m k v) k' = hmGet m k' := by
  rw [hmInsert, hmGet_cons, if_neg (Ne.symm h), hmGet_hmRemove_ne m h]

theorem hmContainsKey_eq_isSome {V : Type} (m : List (String × V)) (k : String) :
    hmContainsKey m k = (hmGet m k).isSome := by
  induction m with
  | nil => rfl
  | cons p t ih =>
    rw [hmContainsKey_cons, hmGet_cons]
    by_cases h : p.1 = k
    · rw [if_pos h, if_pos h]
      rfl
    · rw [if_neg h, if_neg h]
      exact ih

/-! ### `hal/memory.rs`: data structures and `SimulatedCelestialMemory` -/

/-- Exact model of the `f32` values stored (never computed with) by the
memory module. -/
abbrev F32 := Rat

/-- `EmotionCloud` (src/ai_os/src/hal/memory.rs). -/
structure EmotionCloud where
  id : String
  position : F32 × F32 × F32
  color : Nat × Nat × Nat × Nat
  intensity : F32
  shape_description : String
  deriving DecidableEq

/-- `ResonantNode` (src/ai_os/src/hal/memory.rs). -/
structure ResonantNode where
  id : String
  position : F32 × F32 × F32
  related_emotion_cloud_ids : List String
  memory_data_pointer : String
  deriving DecidableEq

/-- `SimulatedCelestialMemory`: two hashmap-backed stores. -/
structure SimulatedCelestialMemory where
  emotion_clouds : List (String × EmotionCloud)
  resonant_nodes : List (String × ResonantNode)
  deriving DecidableEq

/-- `SimulatedCelestialMemory::new`. -/
def SimulatedCelestialMemory.new : SimulatedCelestialMemory :=
  { emotion_clouds := [], resonant_nodes := [] }

/-- `store_emotion_cloud`: error if the id is present, otherwise insert. -/
def store_emotion_cloud (m : SimulatedCelestialMemory) (cloud : EmotionCloud) :
    Except String Unit × SimulatedCelestialMemory :=
  if hmContainsKey m.emotion_clouds cloud.id then
    (Except.error ("EmotionCloud with id " ++ cloud.id ++ " already exists."), m)
  else
    (Except.ok (), { m with emotion_clouds := hmInsert m.emotion_clouds cloud.id cloud })

/-- `retrieve_emotion_cloud`: lookup, returning a clone. -/
def retrieve_emotion_cloud (m : SimulatedCelestialMemory) (id : String) : Option EmotionCloud :=
  hmGet m.emotion_clouds id

/-- `update_emotion_cloud`: error if the id is absent, otherwise overwrite. -/
def update_emotion_cloud (m : SimulatedCelestialMemory) (cloud_update : EmotionCloud) :
    Except String Unit × SimulatedCelestialMemory :=
  if !(hmContainsKey m.emotion_clouds cloud_update.id) then
    (Except.error ("EmotionCloud with id " ++ cloud_update.id ++ " not found for update."), m)
  else
    (Except.ok (),
      { m with emotion_clouds := hmInsert m.emotion_clouds cloud_update.id cloud_update })

/-- `remove_emotion_cloud`: `HashMap::remove` runs first and reports whether a
binding was removed; error when none was. -/
def remove_emotion_cloud (m : SimulatedCelestialMemory) (id : String) :
    Except String Unit × SimulatedCelestialMemory :=
  let removed := hmGet m.emotion_clouds id
  let m' := { m with emotion_clouds := hmRemove m.emotion_clouds id }
  if removed.isNone then
    (Except.error ("EmotionCloud with id " ++ id ++ " not found for removal."), m')
  else
    (Except.ok (), m')

/-- `store_resonant_node`: error if the id is present, otherwise insert. -/
def store_resonant_node (m : SimulatedCelestialMemory) (node : ResonantNode) :
    Except String Unit × SimulatedCelestialMemory :=
  if hmContainsKey m.resonant_nodes node.id then
    (Except.error ("ResonantNode with id " ++ node.id ++ " already exists."), m)
  else
    (Except.ok (), { m with resonant_nodes := hmInsert m.resonant_nodes node.id node })

/-- `retrieve_resonant_node`: lookup, returning a clone. -/
def retrieve_resonant_node (m : SimulatedCelestialMemory) (id : String) : Option ResonantNode :=
  hmGet m.resonant_nodes id

/-- `update_resonant_node`: error if the id is absent, otherwise overwrite. -/
def update_resonant_node (m : SimulatedCelestialMemory) (node_update : ResonantNode) :
    Except String Unit × SimulatedCelestialMemory :=
  if !(hmContainsKey m.resonant_nodes node_update.id) then
    (Except.error ("ResonantNode with id " ++ node_update.id ++ " not found for update."), m)
  else
    (Except.ok (),
      { m with resonant_nodes := hmInsert m.resonant_nodes node_update.id node_update })

/-- `remove_resonant_node`: `HashMap::remove` runs first and reports whether a
binding was removed; error when none was. -/
def remove_resonant_node (m : SimulatedCelestialMemory) (id : String) :
    Except String Unit × SimulatedCelestialMemory :=
  let removed := hmGet m.resonant_nodes id
  let m' := { m with resonant_nodes := hmRemove m.resonant_nodes id }
  if removed.isNone then
    (Except.error ("ResonantNode with id " ++ id ++ " not found for removal."), m')
  else
    (Except.ok (), m')

/-! ### Behaviour of the memory CRUD operations -/

theorem store_emotion_cloud_isOk (m : SimulatedCelestialMemory) (c : EmotionCloud) :
    (store_emotion_cloud m c).1.isOk = (retrieve_emotion_cloud m c.id).isNone := by
  have hcs := hmContainsKey_eq_isSome m.emotion_clouds c.id
  cases ho : hmGet m.emotion_clouds c.id with
  | none =>
    rw [ho] at hcs
    simp [store_emotion_cloud, retrieve_emotion_cloud, hcs, ho, Except.isOk, Except.toBool]
  | some v =>
    rw [ho] at hcs
    simp [store_emotion_cloud, retrieve_emotion_cloud, hcs, ho, Except.isOk, Except.toBool]

theorem store_emotion_cloud_ok_retrieve (m : SimulatedCelestialMemory) (c : EmotionCloud)
    (h : (store_emotion_cloud m c).1.isOk = true) (k : String) :
    retrieve_emotion_cloud (store_emotion_cloud m c).2 k =
      if k = c.id then some c else retrieve_emotion_cloud m k := by
  by_cases hc : hmContainsKey m.emotion_clouds c.id
  · simp [store_emotion_cloud, hc, Except.isOk, Except.toBool] at h
  · by_cases hk : k = c.id
    · simp [store_emotion_cloud, hc, retrieve_emotion_cloud, hk, hmGet_hmInsert_self]
    · simp [store_emotion_cloud, hc, retrieve_emotion_cloud, hk, hmGet_hmInsert_ne _ _ hk]

theorem update_emotion_cloud_isOk (m : SimulatedCelestialMemory) (c : EmotionCloud) :
    (update_emotion_cloud m c).1.isOk = (retrieve_emotion_cloud m c.id).isSome := by
  have hcs := hmContainsKey_eq_isSome m.emotion_clouds c.id
  cases ho : hmGet m.emotion_clouds c.id with
  | none =>
    rw [ho] at hcs
    simp [update_emotion_cloud, retrieve_emotion_cloud, hcs, ho, Except.isOk, Except.toBool]
  | some v =>
    rw [ho] at hcs
    simp [update_emotion_cloud, retrieve_emotion_cloud, hcs, ho, Except.isOk, Except.toBool]

theorem update_emotion_cloud_ok_retrieve (m : SimulatedCelestialMemory) (c : EmotionCloud)
    (h : (update_emotion_cloud m c).1.isOk = true) (k : String) :
    retrieve_emotion_cloud (update_emotion_cloud m c).2 k =
      if k = c.id then some c else retrieve_emotion_cloud m k := by
  by_cases hc : hmContainsKey m.emotion_clouds c.id
  · by_cases hk : k = c.id
    · simp [update_emotion_cloud, hc, retrieve_emotion_cloud, hk, hmGet_hmInsert_self]
    · simp [update_emotion_cloud, hc, retrieve_emotion_cloud, hk, hmGet_hmInsert_ne _ _ hk]
  · simp [update_emotion_cloud, hc, Except.isOk, Except.toBool] at h

theorem remove_emotion_cloud_isOk (m : SimulatedCelestialMemory) (id : String) :
    (remove_emotion_cloud m id).1.isOk = (retrieve_emotion_cloud m id).isSome := by
  cases ho : hmGet m.emotion_clouds id with
  | none => simp [remove_emotion_cloud, retrieve_emotion_cloud, ho, Except.isOk, Except.toBool]
  | some v => simp [remove_emotion_cloud, retrieve_emotion_cloud, ho, Except.isOk, Except.toBool]

theorem remove_emotion_cloud_ok_retrieve (m : SimulatedCelestialMemory) (id : String)
    (h : (remove_emotion_cloud m id).1.isOk = true) (k : String) :
    retrieve_emotion_cloud (remove_emotion_cloud m id).2 k =
      if k = id then none else retrieve_emotion_cloud m k := by
  by_cases hk : k = id
  · subst hk
    cases ho : hmGet m.emotion_clouds k with
    | none => simp [remove_emotion_cloud, ho, Except.isOk, Except.toBool] at h
    | some v =>
      simp [remove_emotion_cloud, ho, retrieve_emotion_cloud, hmGet_hmRemove_self]
  · cases ho : hmGet m.emotion_clouds id with
    | none => simp [remove_emotion_cloud, ho, Except.isOk, Except.toBool] at h
    | some v =>
      simp [remove_emotion_cloud, ho, retrieve_emotion_cloud, hk, hmGet_hmRemove_ne _ hk]

theorem store_resonant_node_isOk (m : SimulatedCelestialMemory) (n : ResonantNode) :
    (store_resonant_node m n).1.isOk = (retrieve_resonant_node m n.id).isNone := by
  have hcs := hmContainsKey_eq_isSome m.resonant_nodes n.id
  cases ho : hmGet m.resonant_nodes n.id with
  | none =>
    rw [ho] at hcs
    simp [store_resonant_node, retrieve_resonant_node, hcs, ho, Except.isOk, Except.toBool]
  | some v =>
    rw [ho] at hcs
    simp [store_resonant_node, retrieve_resonant_node, hcs, ho, Except.isOk, Except.toBool]

theorem store_resonant_node_ok_retrieve (m : SimulatedCelestialMemory) (n : ResonantNode)
    (h : (store_resonant_node m n).1.isOk = true) (k : String) :
    retrieve_resonant_node (store_resonant_node m n).2 k =
      if k = n.id then some n else retrieve_resonant_node m k := by
  by_cases hc : hmContainsKey m.resonant_nodes n.id
  · simp [store_resonant_node, hc, Except.isOk, Except.toBool] at h
  · by_cases hk : k = n.id
    · simp [store_resonant_node, hc, retrieve_resonant_node, hk, hmGet_hmInsert_self]
    · simp [store_resonant_node, hc, retrieve_resonant_node, hk, hmGet_hmInsert_ne _ _ hk]

theorem update_resonant_node_isOk (m : SimulatedCelestialMemory) (n : ResonantNode) :
    (update_resonant_node m n).1.isOk = (retrieve_resonant_node m n.id).isSome := by
  have hcs := hmContainsKey_eq_isSome m.resonant_nodes n.id
  cases ho : hmGet m.resonant_nodes n.id with
  | none =>
    rw [ho] at hcs
    simp [update_resonant_node, retrieve_resonant_node, hcs, ho, Except.isOk, Except.toBool]
  | some v =>
    rw [ho] at hcs
    simp [update_resonant_node, retrieve_resonant_node, hcs, ho, Except.isOk, Except.toBool]

theorem update_resonant_node_ok_retrieve (m : SimulatedCelestialMemory) (n : ResonantNode)
    (h : (update_resonant_node m n).1.isOk = true) (k : String) :
    retrieve_resonant_node (update_resonant_node m n).2 k =
      if k = n.id then some n else retrieve_resonant_node m k := by
  by_cases hc : hmContainsKey m.resonant_nodes n.id
  · by_cases hk : k = n.id
    · simp [update_resonant_node, hc, retrieve_resonant_node, hk, hmGet_hmInsert_self]
    · simp [update_resonant_node, hc, retrieve_resonant_node, hk, hmGet_hmInsert_ne _ _ hk]
  · simp [update_resonant_node, hc, Except.isOk, Except.toBool] at h

theorem remove_resonant_node_isOk (m : SimulatedCelestialMemory) (id : String) :
    (remove_resonant_node m id).1.isOk = (retrieve_resonant_node m id).isSome := by
  cases ho : hmGet m.resonant_nodes id with
  | none => simp [remove_resonant_node, retrieve_resonant_node, ho, Except.isOk, Except.toBool]
  | some v => simp [remove_resonant_node, retrieve_resonant_node, ho, Except.isOk, Except.toBool]

theorem remove_resonant_node_ok_retrieve (m : SimulatedCelestialMemory) (id : String)
    (h : (remove_resonant_node m id).1.isOk = true) (k : String) :
    retrieve_resonant_node (remove_resonant_node m id).2 k =
      if k = id then none else retrieve_resonant_node m k := by
  by_cases hk : k = id
  · subst hk
    cases ho : hmGet m.resonant_nodes k with
    | none => simp [remove_resonant_node, ho, Except.isOk, Except.toBool] at h
    | some v =>
      simp [remove_resonant_node, ho, retrieve_resonant_node, hmGet_hmRemove_self]
  · cases ho : hmGet m.resonant_nodes id with
    | none => simp [remove_resonant_node, ho, Except.isOk, Except.toBool] at h
    | some v =>
      simp [remove_resonant_node, ho, retrieve_resonant_node, hk, hmGet_hmRemove_ne _ hk]

/-- Claim C1: each CRUD operation of `SimulatedCelestialMemory` errs or
succeeds exactly by key presence — `store_*` errs iff the id is already
stored and on Ok inserts the record; `update_*` errs iff the id is absent
and on Ok replaces the stored record; `remove_*` errs iff the id is absent
and on Ok removes it — for emotion clouds and resonant nodes alike.  Here
"already stored" is expressed through `retrieve_*`, and the insert, replace
and remove effects are stated pointwise on every key. -/
theorem memory_crud_error_semantics (m : SimulatedCelestialMemory)
    (c : EmotionCloud) (n : ResonantNode) (id : String) :
    ((store_emotion_cloud m c).1.isOk = (retrieve_emotion_cloud m c.id).isNone)
    ∧ ((store_emotion_cloud m c).1.isOk = true →
        ∀ k, retrieve_emotion_cloud (store_emotion_cloud m c).2 k =
          if k = c.id then some c else retrieve_emotion_cloud m k)
    ∧ ((update_emotion_cloud m c).1.isOk = (retrieve_emotion_cloud m c.id).isSome)
    ∧ ((update_emotion_cloud m c).1.isOk = true →
        ∀ k, retrieve_emotion_cloud (update_emotion_cloud m c).2 k =
          if k = c.id then some c else retrieve_emotion_cloud m k)
    ∧ ((remove_emotion_cloud m id).1.isOk = (retrieve_emotion_cloud m id).isSome)
    ∧ ((remove_emotion_cloud m id).1.isOk = true →
        ∀ k, retrieve_emotion_cloud (remove_emotion_cloud m id).2 k =
          if k = id then none else retrieve_emotion_cloud m k)
    ∧ ((store_resonant_node m n).1.isOk = (retrieve_resonant_node m n.id).isNone)
    ∧ ((store_resonant_node m n).1.isOk = true →
        ∀ k, retrieve_resonant_node (store_resonant_node m n).2 k =
          if k = n.id then some n else retrieve_resonant_node m k)
    ∧ ((update_resonant_node m n).1.isOk = (retrieve_resonant_node m n.id).isSome)
    ∧ ((update_resonant_node m n).1.isOk = true →
        ∀ k, retrieve_resonant_node (update_resonant_node m n).2 k =
          if k = n.id then some n else retrieve_resonant_node m k)
    ∧ ((remove_resonant_node m id).1.isOk = (retrieve_resonant_node m id).isSome)
    ∧ ((remove_resonant_node m id).1.isOk = true →
        ∀ k, retrieve_resonant_node (remove_resonant_node m id).2 k =
          if k = id then none else retrieve_resonant_node m k) :=
  ⟨store_emotion_cloud_isOk m c, store_emotion_cloud_ok_retrieve m c,
   update_emotion_cloud_isOk m c, update_emotion_cloud_ok_retrieve m c,
   remove_emotion_cloud_isOk m id, remove_emotion_cloud_ok_retrieve m id,
   store_resonant_node_isOk m n, store_resonant_node_ok_retrieve m n,
   update_resonant_node_isOk m n, update_resonant_node_ok_retrieve m n,
   remove_resonant_node_isOk m id, remove_resonant_node_ok_retrieve m id⟩

/-- A concrete cloud used by the witnesses. -/
def sampleCloud : EmotionCloud :=
  { id := "cloud1", position := (1, 2, 3), color := (255, 0, 0, 255),
    intensity := (3 : Rat) / 4, shape_description := "sphere" }

/-- A concrete node used by the witnesses; its related-cloud list names an id
that is stored nowhere. -/
def sampleNode : ResonantNode :=
  { id := "node1", position := (4, 5, 6),
    related_emotion_cloud_ids := ["no_such_cloud"],
    memory_data_pointer := "ptr_to_data_123" }

/-- Witness for C1 at a concrete store: storing into the empty memory
succeeds, and the new cloud is retrievable while another key stays empty. -/
theorem memory_crud_error_semantics_witness :
    (store_emotion_cloud SimulatedCelestialMemory.new sampleCloud).1.isOk =
      (retrieve_emotion_cloud SimulatedCelestialMemory.new sampleCloud.id).isNone
    ∧ retrieve_emotion_cloud
        (store_emotion_cloud SimulatedCelestialMemory.new sampleCloud).2 "cloud1" =
      (if "cloud1" = sampleCloud.id then some sampleCloud
       else retrieve_emotion_cloud SimulatedCelestialMemory.new "cloud1") :=
  ⟨(memory_crud_error_semantics SimulatedCelestialMemory.new sampleCloud sampleNode "z").1,
   (memory_crud_error_semantics SimulatedCelestialMemory.new sampleCloud sampleNode
      "z").2.1 (by decide) "cloud1"⟩

/-- Claim C7: a successful `store_emotion_cloud` is immediately visible to
`retrieve_emotion_cloud`, which returns the stored record itself (hence equal
in every field), and likewise for resonant nodes. -/
theorem memory_store_retrieve_roundtrip (m : SimulatedCelestialMemory)
    (c : EmotionCloud) (n : ResonantNode) :
    ((store_emotion_cloud m c).1.isOk = true →
      retrieve_emotion_cloud (store_emotion_cloud m c).2 c.id = some c)
    ∧ ((store_resonant_node m n).1.isOk = true →
      retrieve_resonant_node (store_resonant_node m n).2 n.id = some n) := by
  constructor
  · intro h
    have := store_emotion_cloud_ok_retrieve m c h c.id
    simpa using this
  · intro h
    have := store_resonant_node_ok_retrieve m n h n.id
    simpa using this

/-- Witness for C7: the round trip evaluated on concrete records in the empty
memory. -/
theorem memory_store_retrieve_roundtrip_witness :
    retrieve_emotion_cloud
      (store_emotion_cloud SimulatedCelestialMemory.new sampleCloud).2 sampleCloud.id =
      some sampleCloud
    ∧ retrieve_resonant_node
        (store_resonant_node SimulatedCelestialMemory.new sampleNode).2 sampleNode.id =
      some sampleNode :=
  ⟨(memory_store_retrieve_roundtrip SimulatedCelestialMemory.new sampleCloud sampleNode).1
      (by decide),
   (memory_store_retrieve_roundtrip SimulatedCelestialMemory.new sampleCloud sampleNode).2
      (by decide)⟩

/-- Claim C10: the two stores are independent — every emotion-cloud operation
leaves the resonant-node map unchanged and every resonant-node operation
leaves the emotion-cloud map unchanged, on both the Ok and the Err path; and
`store_resonant_node` succeeds exactly when the node id is fresh, with no
referential check of `related_emotion_cloud_ids` (success depends only on the
id, whatever cloud ids the node names). -/
theorem memory_store_independence (m : SimulatedCelestialMemory)
    (c : EmotionCloud) (n : ResonantNode) (id : String) :
    ((store_emotion_cloud m c).2.resonant_nodes = m.resonant_nodes)
    ∧ ((update_emotion_cloud m c).2.resonant_nodes = m.resonant_nodes)
    ∧ ((remove_emotion_cloud m id).2.resonant_nodes = m.resonant_nodes)
    ∧ ((store_resonant_node m n).2.emotion_clouds = m.emotion_clouds)
    ∧ ((update_resonant_node m n).2.emotion_clouds = m.emotion_clouds)
    ∧ ((remove_resonant_node m id).2.emotion_clouds = m.emotion_clouds)
    ∧ ((store_resonant_node m n).1.isOk = (retrieve_resonant_node m n.id).isNone) := by
  refine ⟨?_, ?_, ?_, ?_, ?_, ?_, store_resonant_node_isOk m n⟩
  · by_cases h : hmContainsKey m.emotion_clouds c.id <;> simp [store_emotion_cloud, h]
  · by_cases h : hmContainsKey m.emotion_clouds c.id <;> simp [update_emotion_cloud, h]
  · by_cases h : (hmGet m.emotion_clouds id).isNone <;> simp [remove_emotion_cloud, h]
  · by_cases h : hmContainsKey m.resonant_nodes n.id <;> simp [store_resonant_node, h]
  · by_cases h : hmContainsKey m.resonant_nodes n.id <;> simp [update_resonant_node, h]
  · by_cases h : (hmGet m.resonant_nodes id).isNone <;> simp [remove_resonant_node, h]

/-- Witness for C10: storing a node whose related-cloud list names an absent
cloud succeeds and leaves a pre-existing emotion-cloud map untouched. -/
theorem memory_store_independence_witness :
    (store_resonant_node
        (store_emotion_cloud SimulatedCelestialMemory.new sampleCloud).2
        sampleNode).2.emotion_clouds =
      (store_emotion_cloud SimulatedCelestialMemory.new sampleCloud).2.emotion_clouds
    ∧ (store_resonant_node
        (store_emotion_cloud SimulatedCelestialMemory.new sampleCloud).2
        sampleNode).1.isOk =
      (retrieve_resonant_node
        (store_emotion_cloud SimulatedCelestialMemory.new sampleCloud).2
        sampleNode.id).isNone :=
  ⟨(memory_store_independence
      (store_emotion_cloud SimulatedCelestialMemory.new sampleCloud).2
      sampleCloud sampleNode "z").2.2.2.1,
   (memory_store_independence
      (store_emotion_cloud SimulatedCelestialMemory.new sampleCloud).2
      sampleCloud sampleNode "z").2.2.2.2.2.2⟩

/-! ### `hal/ai.rs`: the emotional reasoning engine -/

/-- One lowercasing step of Rust `str::to_lowercase`, modelled on ASCII
letters (the engine's keywords are all ASCII). -/
def charToLower (c : Char) : Char :=
  if 65 ≤ c.toNat ∧ c.toNat ≤ 90 then Char.ofNat (c.toNat + 32) else c

/-- Model of Rust `str::to_lowercase`. -/
def strToLower (s : String) : String := ⟨s.data.map charToLower⟩

/-- Sequence containment used to model Rust `str::contains`:
`containsSeq needle hay` holds iff `needle` occurs contiguously in `hay`. -/
def containsSeq (needle : List Char) : List Char → Bool
  | [] => needle.isEmpty
  | a :: t => needle.isPrefixOf (a :: t) || containsSeq needle t

/-- Rust `str::contains` on the underlying character lists. -/
def strContains (s pat : String) : Bool := containsSeq pat.data s.data

/-- `EmotionalOutput` (src/ai_os/src/hal/ai.rs); the `f32` intensity is
modelled as the exact rational the source literal denotes. -/
structure EmotionalOutput where
  primary_emotion : String
  intensity : Rat
  deriving DecidableEq

/-- `MyEmotionalReasoningEngine::analyze_emotional_context`
(src/ai_os/src/hal/ai.rs): lowercase the input, then four keyword-group
substring checks in order, with hardcoded intensities. -/
def analyze_emotional_context (text_input : String) : Except String EmotionalOutput :=
  let lower_input := strToLower text_input
  if strContains lower_input "happy" || strContains lower_input "joy" then
    Except.ok { primary_emotion := "joy", intensity := 0.8 }
  else if strContains lower_input "sad" || strContains lower_input "sorrow" then
    Except.ok { primary_emotion := "sorrow", intensity := 0.7 }
  else if strContains lower_input "angry" || strContains lower_input "anger" then
    Except.ok { primary_emotion := "anger", intensity := 0.9 }
  else if strContains lower_input "fear" then
    Except.ok { primary_emotion := "fear", intensity := 0.6 }
  else
    Except.ok { primary_emotion := "neutral", intensity := 0.5 }

/-- The result table claim C2 states for the engine, written from the
claim's wording: the priority-ordered keyword groups with their hardcoded
emotions and intensities, evaluated on the lowercased input. -/
def claimedEmotion (s : String) : EmotionalOutput :=
  let l := strToLower s
  if strContains l "happy" || strContains l "joy" then
    { primary_emotion := "joy", intensity := 0.8 }
  else if strContains l "sad" || strContains l "sorrow" then
    { primary_emotion := "sorrow", intensity := 0.7 }
  else if strContains l "angry" || strContains l "anger" then
    { primary_emotion := "anger", intensity := 0.9 }
  else if strContains l "fear" then
    { primary_emotion := "fear", intensity := 0.6 }
  else
    { primary_emotion := "neutral", intensity := 0.5 }

theorem toNat_ofNat_valid (n : Nat) (h : n < 55296) : (Char.ofNat n).toNat = n := by
  have hv : n.isValidChar := Or.inl h
  simp [Char.ofNat, hv, Char.ofNatAux, Char.toNat, UInt32.toNat, BitVec.toNat_ofNatLt]

theorem charToLower_not_upper (c : Char) :
    ¬(65 ≤ (charToLower c).toNat ∧ (charToLower c).toNat ≤ 90) := by
  unfold charToLower
  by_cases h : 65 ≤ c.toNat ∧ c.toNat ≤ 90
  · rw [if_pos h, toNat_ofNat_valid _ (by omega)]
    omega
  · rw [if_neg h]
    exact h

theorem charToLower_eq_self {c : Char} (h : ¬(65 ≤ c.toNat ∧ c.toNat ≤ 90)) :
    charToLower c = c := by
  unfold charToLower
  rw [if_neg h]

theorem charToLower_idem (c : Char) : charToLower (charToLower c) = charToLower c :=
  charToLower_eq_self (charToLower_not_upper c)

theorem strToLower_idem (s : String) : strToLower (strToLower s) = strToLower s := by
  unfold strToLower
  refine congrArg String.mk ?_
  show (s.data.map charToLower).map charToLower = s.data.map charToLower
  rw [List.map_map]
  exact List.map_congr_left (fun c _ => charToLower_idem c)

/-- Claim C2: `analyze_emotional_context` computes exactly the claimed
keyword table — lowercasing, then the four keyword-group checks in priority
order with hardcoded intensities — and is case-insensitive: lowercasing the
input first does not change the result. -/
theorem analyze_emotional_context_keyword_table (s : String) :
    analyze_emotional_context s = Except.ok (claimedEmotion s)
    ∧ analyze_emotional_context (strToLower s) = analyze_emotional_context s := by
  constructor
  · simp only [analyze_emotional_context, claimedEmotion]
    split_ifs <;> rfl
  · simp only [analyze_emotional_context]
    rw [strToLower_idem]

/-- Claim C9: the engine never takes the error branch of its `Result`
interface — every input, the empty string included, yields `Ok`. -/
theorem analyze_emotional_context_total (s : String) :
    (analyze_emotional_context s).isOk = true := by
  simp only [analyze_emotional_context]
  split_ifs <;> rfl

/-! ### `hal/compute.rs`: the compute service -/

/-- `DeviceType` (src/ai_os/src/hal/compute.rs). -/
inductive DeviceType
  | CPU
  | GPU
  | NPU
  deriving DecidableEq

/-- `CpuDevice` (src/ai_os/src/hal/compute.rs). -/
structure CpuDevice where
  name : String
  capabilities_info : String
  deriving DecidableEq

/-- `CpuDevice::device_type`: always CPU. -/
def CpuDevice.device_type (_ : CpuDevice) : DeviceType := DeviceType.CPU

/-- `CpuDevice::capabilities` (returns a clone of the info string). -/
def CpuDevice.capabilities (d : CpuDevice) : String := d.capabilities_info

/-- `BasicComputeService`: the stored device list.  `new` constructs the only
device that ever enters the list, a `CpuDevice`, so the list is modelled with
that concrete element type. -/
structure BasicComputeService where
  devices : List CpuDevice
  deriving DecidableEq

/-- `BasicComputeService::new`: one simulated host CPU. -/
def BasicComputeService.new : BasicComputeService :=
  { devices := [{ name := "Host CPU", capabilities_info := "General purpose computation" }] }

/-- `BasicComputeService::list_devices`: re-boxes each stored device from its
reported name and capabilities. -/
def list_devices (s : BasicComputeService) : List CpuDevice :=
  s.devices.map (fun d => { name := d.name, capabilities_info := d.capabilities })

/-- Claim C8: on the service built by `new`, `list_devices` returns exactly
one device — named "Host CPU", with capabilities "General purpose
computation" — and its `device_type` is CPU.  `list_devices` takes the
service immutably, so in this state-passing embedding repeated calls are
literally the same value. -/
theorem basic_compute_service_single_cpu :
    list_devices BasicComputeService.new =
      [{ name := "Host CPU", capabilities_info := "General purpose computation" }]
    ∧ ∀ d ∈ list_devices BasicComputeService.new, d.device_type = DeviceType.CPU := by
  constructor
  · rfl
  · intro d _
    rfl

/-! ### `hal/tensor.rs`: tensor addition -/

/-- `DataType` (src/ai_os/src/hal/tensor.rs). -/
inductive DataType
  | F32
  | I32
  | U8
  deriving DecidableEq

/-- A byte of a tensor's raw `Vec<u8>` buffer. -/
abbrev Byte := Nat

/-- The 4-byte group backing one `f32` element of a buffer. -/
abbrev F32Bytes := Byte × Byte × Byte × Byte

/-- `Tensor` (src/ai_os/src/hal/tensor.rs): dimensions, element type and the
raw byte buffer. -/
structure Tensor where
  dimensions : List Nat
  data_type : DataType
  data : List Byte
  deriving DecidableEq

/-- The grouping of a byte buffer into 4-byte `f32` elements performed by
`Tensor::as_slice::<f32>`'s pointer cast. -/
def group4 : List Byte → List F32Bytes
  | a :: b :: c :: d :: rest => (a, b, c, d) :: group4 rest
  | _ => []

/-- Flattening 4-byte `f32` elements back into a byte buffer (the reverse
reinterpretation performed when `add` rebuilds its result `Vec<u8>`). -/
def ungroup4 : List F32Bytes → List Byte
  | [] => []
  | (a, b, c, d) :: rest => a :: b :: c :: d :: ungroup4 rest

/-- `Tensor::as_slice::<f32>`: errs unless the byte length is a multiple of
the element size, otherwise reinterprets the buffer. -/
def as_slice_f32 (t : Tensor) : Except String (List F32Bytes) :=
  if t.data.length % 4 ≠ 0 then
    Except.error "Data size is not a multiple of the type size."
  else
    Except.ok (group4 t.data)

/-- `CpuTensorOperations::add` (src/ai_os/src/hal/tensor.rs).  `f32add`
abstracts the hardware addition of two `f32` values given by their 4-byte
patterns; every other aspect of the function is embedded directly. -/
def CpuTensorOperations.add (f32add : F32Bytes → F32Bytes → F32Bytes)
    (tensor_a tensor_b : Tensor) : Except String Tensor :=
  if tensor_a.dimensions ≠ tensor_b.dimensions then
    Except.error "Tensor dimensions must match for addition."
  else if tensor_a.data_type ≠ tensor_b.data_type then
    Except.error "Tensor data types must match for addition."
  else
    match tensor_a.data_type with
    | DataType.F32 =>
      match as_slice_f32 tensor_a with
      | Except.error e => Except.error e
      | Except.ok slice_a =>
        match as_slice_f32 tensor_b with
        | Except.error e => Except.error e
        | Except.ok slice_b =>
          if slice_a.length ≠ slice_b.length then
            Except.error "Internal data length mismatch despite same dimensions."
          else
            Except.ok { dimensions := tensor_a.dimensions, data_type := tensor_a.data_type,
                        data := ungroup4 (List.zipWith f32add slice_a slice_b) }
    | _ => Except.error "Addition for this data type is not yet implemented."

/-- Claim C5: `add` handles exactly one numeric type — it errs on mismatched
dimensions, errs on mismatched data types, errs whenever the shared data
type is not `F32` (so on `I32` and `U8`), and produces `Ok` only for two
`F32` tensors of identical dimensions with well-formed (4-byte-aligned)
buffers, the result carrying tensor a's dimensions and data type and the
element-wise sums. -/
theorem tensor_add_single_type (f32add : F32Bytes → F32Bytes → F32Bytes)
    (a b : Tensor) :
    (a.dimensions ≠ b.dimensions → (CpuTensorOperations.add f32add a b).isOk = false)
    ∧ (a.data_type ≠ b.data_type → (CpuTensorOperations.add f32add a b).isOk = false)
    ∧ (a.data_type = b.data_type → a.data_type ≠ DataType.F32 →
        (CpuTensorOperations.add f32add a b).isOk = false)
    ∧ (∀ t, CpuTensorOperations.add f32add a b = Except.ok t →
        a.dimensions = b.dimensions ∧ a.data_type = DataType.F32
        ∧ b.data_type = DataType.F32
        ∧ a.data.length % 4 = 0 ∧ b.data.length % 4 = 0
        ∧ t.dimensions = a.dimensions ∧ t.data_type = a.data_type
        ∧ t.data = ungroup4 (List.zipWith f32add (group4 a.data) (group4 b.data))) := by
  refine ⟨?_, ?_, ?_, ?_⟩
  · intro h
    simp [CpuTensorOperations.add, h, Except.isOk, Except.toBool]
  · intro h
    by_cases hd : a.dimensions = b.dimensions
    · simp [CpuTensorOperations.add, hd, h, Except.isOk, Except.toBool]
    · simp [CpuTensorOperations.add, hd, Except.isOk, Except.toBool]
  · intro he hne
    by_cases hd : a.dimensions = b.dimensions
    · cases ha : a.data_type with
      | F32 => exact absurd ha hne
      | I32 =>
        have hb : b.data_type = DataType.I32 := he.symm.trans ha
        simp [CpuTensorOperations.add, hd, ha, hb, Except.isOk, Except.toBool]
      | U8 =>
        have hb : b.data_type = DataType.U8 := he.symm.trans ha
        simp [CpuTensorOperations.add, hd, ha, hb, Except.isOk, Except.toBool]
    · simp [CpuTensorOperations.add, hd, Except.isOk, Except.toBool]
  · intro t h
    by_cases hd : a.dimensions = b.dimensions
    · by_cases he : a.data_type = b.data_type
      · by_cases ha : a.data_type = DataType.F32
        · have hb : b.data_type = DataType.F32 := he.symm.trans ha
          by_cases ha4 : a.data.length % 4 = 0
          · by_cases hb4 : b.data.length % 4 = 0
            · by_cases hlen : (group4 a.data).length = (group4 b.data).length
              · simp [CpuTensorOperations.add, as_slice_f32, hd, ha, hb, ha4, hb4, hlen] at h
                refine ⟨hd, ha, hb, ha4, hb4, ?_, ?_, ?_⟩
                · rw [← h]
                  exact hd.symm
                · rw [← h]
                  exact ha.symm
                · rw [← h]
              · simp [CpuTensorOperations.add, as_slice_f32, hd, ha, hb, ha4, hb4, hlen] at h
            · simp [CpuTensorOperations.add, as_slice_f32, hd, ha, hb, ha4, hb4] at h
          · simp [CpuTensorOperations.add, as_slice_f32, hd, ha, hb, ha4] at h
        · cases hdt : a.data_type with
          | F32 => exact absurd hdt ha
          | I32 =>
            have hb : b.data_type = DataType.I32 := he.symm.trans hdt
            simp [CpuTensorOperations.add, hd, hdt, hb] at h
          | U8 =>
            have hb : b.data_type = DataType.U8 := he.symm.trans hdt
            simp [CpuTensorOperations.add, hd, hdt, hb] at h
      · simp [CpuTensorOperations.add, hd, he] at h
    · simp [CpuTensorOperations.add, hd] at h

/-- Witness for C5: a concrete dimension mismatch errs, and a concrete
well-formed `F32` addition is accepted with the first tensor's shape. -/
theorem tensor_add_single_type_witness :
    (CpuTensorOperations.add (fun p _ => p)
      { dimensions := [2], data_type := DataType.F32, data := [1, 2, 3, 4, 5, 6, 7, 8] }
      { dimensions := [3], data_type := DataType.F32, data := [1, 2, 3, 4, 5, 6, 7, 8] }).isOk
      = false :=
  (tensor_add_single_type (fun p _ => p)
    { dimensions := [2], data_type := DataType.F32, data := [1, 2, 3, 4, 5, 6, 7, 8] }
    { dimensions := [3], data_type := DataType.F32, data := [1, 2, 3, 4, 5, 6, 7, 8] }).1
    (by decide)

/-! ### `os_services.rs` / `module_system.rs`: file system and the module
registry

The file system seen through `FileSystemService` is modelled as an
association list from path strings to contents: `read_to_string` succeeds
exactly on stored paths, `write_string` creates or truncates.  The `sha2`
digest and serde_json's parsing/rendering of the flat entry list are library
code, kept abstract as the parameters `sha256hex`, `parse` and `render`;
console output is not modelled. -/

/-- The file system state. -/
abbrev FsState := List (String × String)

/-- `FileSystemService::read_to_string`. -/
def fsRead (fs : FsState) (path : String) : Option String := hmGet fs path

/-- `FileSystemService::write_string`. -/
def fsWrite (fs : FsState) (path content : String) : FsState := hmInsert fs path content

/-- `FileSystemService::path_exists`. -/
def path_exists (fs : FsState) (path : String) : Bool := (fsRead fs path).isSome

/-- `BlockchainEntry` (src/ai_os/src/module_system.rs): a flat
`(module_name, hash)` record with no link to any other entry. -/
structure BlockchainEntry where
  module_name : String
  hash : String
  deriving DecidableEq

/-- `calculate_sha256` (src/ai_os/src/module_system.rs): read the file as a
string and hash its bytes; `sha256hex` abstracts the `sha2` digest (content
to hex string).  In this fs model a read fails exactly when the path is
absent; the propagated error string is collapsed to a fixed message. -/
def calculate_sha256 (sha256hex : String → String) (fs : FsState) (filepath_str : String) :
    Except String String :=
  match fsRead fs filepath_str with
  | none => Except.error "read failed"
  | some content_str => Except.ok (sha256hex content_str)

/-- The fixed blockchain file path used by `module_system.rs`. -/
def blockchain_path : String := "ai_os/blockchain.json"

/-- Model of Rust `str::trim`: strip whitespace from both ends. -/
def strTrim (s : String) : String :=
  ⟨((s.data.dropWhile Char.isWhitespace).reverse.dropWhile Char.isWhitespace).reverse⟩

/-- `read_blockchain_entries` (src/ai_os/src/module_system.rs).  `parse`
abstracts `serde_json::from_str::<Vec<BlockchainEntry>>`, `none` meaning a
parse error.  In this model a read fails exactly when the path is absent, so
the source's `path_exists` re-check always selects its initialize branch,
which writes `"[]"`; the source branch for a read error on an existing path
is unreachable here.  Returns the entries together with the possibly-updated
file system. -/
def read_blockchain_entries (parse : String → Option (List BlockchainEntry)) (fs : FsState) :
    List BlockchainEntry × FsState :=
  match fsRead fs blockchain_path with
  | some data =>
    if strTrim data = "" then ([], fs)
    else
      match parse data with
      | some entries => (entries, fs)
      | none => ([], fs)
  | none => ([], fsWrite fs blockchain_path "[]")

/-- `write_blockchain_entries` (src/ai_os/src/module_system.rs): render the
list (`serde_json::to_string_pretty`, abstracted as `render`) and write it to
the blockchain file. -/
def write_blockchain_entries (render : List BlockchainEntry → String) (fs : FsState)
    (entries : List BlockchainEntry) : FsState :=
  fsWrite fs blockchain_path (render entries)

/-- What the `run_mod` handler reports. -/
inductive RunModOutcome
  | module_not_found
  | hash_error (e : String)
  | verified
  | integrity_failed (expected got : String)
  | not_registered
  deriving DecidableEq

/-- The `run_mod` command handler of `main` (src/ai_os/src/main.rs), given
the module-name argument: existence check, hash recomputation, then lookup of
the first blockchain entry carrying the module's name and a single string
comparison of the stored and recomputed hashes. -/
def run_mod (sha256hex : String → String) (parse : String → Option (List BlockchainEntry))
    (fs : FsState) (module_name : String) : RunModOutcome × FsState :=
  let module_path := "ai_os/modules/" ++ module_name
  if !(path_exists fs module_path) then (RunModOutcome.module_not_found, fs)
  else
    match calculate_sha256 sha256hex fs module_path with
    | Except.error e => (RunModOutcome.hash_error e, fs)
    | Except.ok current_hash =>
      let rb := read_blockchain_entries parse fs
      match rb.1.find? (fun entry => entry.module_name == module_name) with
      | some entry =>
        if entry.hash == current_hash then (RunModOutcome.verified, rb.2)
        else (RunModOutcome.integrity_failed entry.hash current_hash, rb.2)
      | none => (RunModOutcome.not_registered, rb.2)

/-- What the `register_mod` handler reports. -/
inductive RegisterModOutcome
  | module_not_found
  | hash_error (e : String)
  | registered (hash : String)
  deriving DecidableEq

/-- The `register_mod` command handler of `main` (src/ai_os/src/main.rs):
existence check, hash the module file, read the entry list, push exactly one
new `{name, hash}` record at the end, write the list back.  (The source's
write-error branch only reprints the fs error; writes in this model always
succeed.) -/
def register_mod (sha256hex : String → String)
    (parse : String → Option (List BlockchainEntry))
    (render : List BlockchainEntry → String)
    (fs : FsState) (module_filename : String) : RegisterModOutcome × FsState :=
  let module_path_str := "ai_os/modules/" ++ module_filename
  if !(path_exists fs module_path_str) then (RegisterModOutcome.module_not_found, fs)
  else
    match calculate_sha256 sha256hex fs module_path_str with
    | Except.error e => (RegisterModOutcome.hash_error e, fs)
    | Except.ok hash =>
      let rb := read_blockchain_entries parse fs
      let new_entries := rb.1 ++ [{ module_name := module_filename, hash := hash }]
      (RegisterModOutcome.registered hash, write_blockchain_entries render rb.2 new_entries)

theorem find?_first_match {α : Type} (p : α → Bool) (pre : List α) (e : α) (post : List α)
    (hpre : ∀ x ∈ pre, p x = false) (he : p e = true) :
    (pre ++ e :: post).find? p = some e := by
  induction pre with
  | nil => simp [List.find?_cons, he]
  | cons a t ih =>
    have ha := hpre a (by simp)
    rw [List.cons_append, List.find?_cons_of_neg _ (by simp [ha])]
    exact ih (fun x hx => hpre x (by simp [hx]))

/-- Claim C3: when the module file exists and is readable, and the blockchain
list holds an entry with the requested name, `run_mod` reports the module
verified exactly when the hash recomputed from the file's current content
equals (as a string) the hash field of the first entry carrying that name;
when no entry carries the name, it reports the module as not registered. -/
theorem run_mod_verifies_by_hash_equality
    (sha256hex : String → String) (parse : String → Option (List BlockchainEntry))
    (fs : FsState) (module_name content : String)
    (hread : fsRead fs ("ai_os/modules/" ++ module_name) = some content) :
    (∀ pre e post, (read_blockchain_entries parse fs).1 = pre ++ e :: post →
      (∀ x ∈ pre, x.module_name ≠ module_name) → e.module_name = module_name →
      ((run_mod sha256hex parse fs module_name).1 = RunModOutcome.verified
        ↔ e.hash = sha256hex content))
    ∧ ((∀ x ∈ (read_blockchain_entries parse fs).1, x.module_name ≠ module_name) →
      (run_mod sha256hex parse fs module_name).1 = RunModOutcome.not_registered) := by
  have hex : path_exists fs ("ai_os/modules/" ++ module_name) = true := by
    simp [path_exists, hread]
  constructor
  · intro pre e post hentries hpre he
    have hfind : (read_blockchain_entries parse fs).1.find?
        (fun entry => entry.module_name == module_name) = some e := by
      rw [hentries]
      exact find?_first_match _ pre e post
        (fun x hx => by simpa using hpre x hx) (by simpa using he)
    rw [run_mod]
    simp only [hex, Bool.not_true, Bool.false_eq_true, if_false, calculate_sha256, hread,
      hfind]
    by_cases hh : e.hash = sha256hex content
    · simp [hh]
    · simp [hh]
  · intro hnone
    have hfind : (read_blockchain_entries parse fs).1.find?
        (fun entry => entry.module_name == module_name) = none := by
      rw [List.find?_eq_none]
      intro x hx
      simpa using hnone x hx
    rw [run_mod]
    simp only [hex, Bool.not_true, Bool.false_eq_true, if_false, calculate_sha256, hread,
      hfind]

/-- Abstract SHA-256 stand-in used by the witnesses. -/
def sampleSha : String → String := fun content => "sha-" ++ content

/-- Concrete parse function used by the C3 witness: the stored list holds one
entry for module "m" whose hash matches `sampleSha "body"`. -/
def sampleParseMatch : String → Option (List BlockchainEntry) :=
  fun s => if s = "good" then some [{ module_name := "m", hash := "sha-body" }] else none

/-- Concrete parse function used by the C6 witness: the stored list already
holds an entry named "m" (so registering "m" again makes a duplicate). -/
def sampleParse : String → Option (List BlockchainEntry) :=
  fun s => if s = "good" then some [{ module_name := "m", hash := "old" }] else none

/-- Concrete render function used by the C6 witness. -/
def sampleRender : List BlockchainEntry → String :=
  fun entries => String.intercalate ";" (entries.map (fun e => e.module_name ++ ":" ++ e.hash))

/-- Concrete file system used by the C3 and C6 witnesses. -/
def sampleFs : FsState :=
  [("ai_os/modules/m", "body"), ("ai_os/blockchain.json", "good")]

/-- Witness for C3: on the concrete store whose registered hash matches the
recomputed one, `run_mod` reports verified. -/
theorem run_mod_verifies_by_hash_equality_witness :
    (run_mod sampleSha sampleParseMatch sampleFs "m").1 = RunModOutcome.verified :=
  ((run_mod_verifies_by_hash_equality sampleSha sampleParseMatch sampleFs "m" "body"
      (by decide)).1
    [] { module_name := "m", hash := "sha-body" } [] (by decide)
    (by intro x hx; simp at hx) (by decide)).mpr (by decide)

/-- Counterexample for C4 as stated: `read_blockchain_entries` does not
propagate a read or parse failure as an error string — on unparseable content
it recovers with the empty list (its return type has no error channel at
all), and on a missing file it modifies the file system, initializing the
blockchain file with "[]". -/
theorem read_blockchain_entries_no_propagation :
    read_blockchain_entries (fun _ => none) [(blockchain_path, "not json")]
      = ([], [(blockchain_path, "not json")])
    ∧ fsRead (read_blockchain_entries (fun _ => none) []).2 blockchain_path = some "[]" := by
  constructor
  · decide
  · decide

/-- Claim C4 as amended: when reading the blockchain list fails,
`read_blockchain_entries` recovers instead of propagating an error — a
missing file is initialized to "[]" with an empty list returned, and content
that fails to parse yields the empty list with the file system unchanged. -/
theorem read_blockchain_entries_recovers
    (parse : String → Option (List BlockchainEntry)) (fs : FsState) :
    (fsRead fs blockchain_path = none →
      read_blockchain_entries parse fs = ([], fsWrite fs blockchain_path "[]"))
    ∧ (∀ data, fsRead fs blockchain_path = some data → strTrim data ≠ "" → parse data = none →
      read_blockchain_entries parse fs = ([], fs)) := by
  constructor
  · intro h
    rw [read_blockchain_entries, h]
  · intro data hdata htrim hparse
    rw [read_blockchain_entries, hdata]
    simp [htrim, hparse]

/-- Witness for the amended C4: on a file system without the blockchain file,
the function returns the empty list and creates the file. -/
theorem read_blockchain_entries_recovers_witness :
    read_blockchain_entries (fun _ => none) [("x", "y")]
      = ([], fsWrite [("x", "y")] blockchain_path "[]") :=
  (read_blockchain_entries_recovers (fun _ => none) [("x", "y")]).1 (by decide)

/-- Claim C6: with a registrable module file and a well-formed current entry
list, `register_mod` writes back exactly the old list with one new
`(module_name, hash)` record appended at the end — every pre-existing entry
unchanged and in its original position, the new record linking to or hashing
no other entry — and nothing restricts the name: registering succeeds however
many entries already carry it. -/
theorem register_mod_appends_one_entry
    (sha256hex : String → String) (parse : String → Option (List BlockchainEntry))
    (render : List BlockchainEntry → String) (fs : FsState)
    (module_filename content data : String) (entries : List BlockchainEntry)
    (hmod : fsRead fs ("ai_os/modules/" ++ module_filename) = some content)
    (hdata : fsRead fs blockchain_path = some data)
    (htrim : strTrim data ≠ "")
    (hparse : parse data = some entries) :
    (register_mod sha256hex parse render fs module_filename).1
      = RegisterModOutcome.registered (sha256hex content)
    ∧ fsRead (register_mod sha256hex parse render fs module_filename).2 blockchain_path
      = some (render (entries ++ [{ module_name := module_filename,
                                    hash := sha256hex content }])) := by
  have hex : path_exists fs ("ai_os/modules/" ++ module_filename) = true := by
    simp [path_exists, hmod]
  have hrb : read_blockchain_entries parse fs = (entries, fs) := by
    rw [read_blockchain_entries, hdata]
    simp [htrim, hparse]
  rw [register_mod]
  simp only [hex, Bool.not_true, Bool.false_eq_true, if_false, calculate_sha256, hmod, hrb]
  exact ⟨trivial, by rw [write_blockchain_entries, fsWrite, fsRead, hmGet_hmInsert_self]⟩

/-- Witness for C6: registering module "m" over a store that already holds an
entry named "m" succeeds and writes the two-element list — the old entry
first, the new record appended. -/
theorem register_mod_appends_one_entry_witness :
    (register_mod sampleSha sampleParse sampleRender sampleFs "m").1
      = RegisterModOutcome.registered (sampleSha "body")
    ∧ fsRead (register_mod sampleSha sampleParse sampleRender sampleFs "m").2 blockchain_path
      = some (sampleRender [{ module_name := "m", hash := "old" },
                            { module_name := "m", hash := sampleSha "body" }]) :=
  register_mod_appends_one_entry sampleSha sampleParse sampleRender sampleFs "m" "body"
    "good" [{ module_name := "m", hash := "old" }]
    (by decide) (by decide) (by decide) (by decide)

end AiOS
